import Mathlib

/-!
Verification of the resilient request client and the task-hierarchy builder
of `Scripts/clickup_sync/src/clickup_client.py`.

The embedding models one logical call to `ClickUpClient._make_request` as a
deterministic function of
  * a configuration (`max_retries`, `retry_delay`, both set in `__init__`),
  * an environment `env : Nat -> HttpEvent` giving, for each transport
    attempt `i` (each call of `requests.request`), what that attempt produced:
    an HTTP response (status, parsed integer `Retry-After` header when present,
    and the JSON decoding of the body when `response.json()` succeeds), a
    connection/timeout exception, or any other exception, and
  * a jitter oracle `jit : Nat -> Rat` giving the value drawn by
    `random.uniform(0, 1)` when attempt `i` is followed by a backoff sleep.

The result records the outcome (the returned JSON mapping, or the
`ClickUpAPIError` raised, identified by its raise site and payload), the
number of transport attempts made, and the list of `time.sleep` durations in
order.  Floats are modelled as rationals.
-/

/-- A JSON value, as produced by `response.json()`. -/
inductive Json where
  | null
  | bool (b : Bool)
  | num (n : Int)
  | str (s : String)
  | arr (elems : List Json)
  | obj (fields : List (String × Json))

/-- What one call of `requests.request` produced, as seen by the `try` body
of `_make_request` (lines 106-126 of `clickup_client.py`).

* `response status retryAfter body`: an HTTP response arrived.  `retryAfter`
  is the integer value of the `Retry-After` header when the header is present
  (the code parses it with `int(...)`; a non-integer header is outside this
  model), `body` is `some j` when `response.json()` decodes to `j` and `none`
  when decoding raises.
* `connError msg`: `requests.request` raised `ConnectionError` or `Timeout`
  whose `str` is `msg` (caught at line 128).
* `otherExc msg`: any other exception, `str` being `msg` (caught at
  line 164). -/
inductive HttpEvent where
  | response (status : Nat) (retryAfter : Option Int) (body : Option Json)
  | connError (msg : String)
  | otherExc (msg : String)

/-- Message used when `response.json()` raises on a success response
(abstracting the `str(e)` of the decode exception at line 166). -/
def jsonDecodeMsg : String := "JSON decode failure"

/-- A raised `ClickUpAPIError`, identified by its raise site in
`_make_request` together with the data that raise site puts into the
exception (message parameters, `status_code`, `response`).

* `connectionError` — line 132: message mentions `self.max_retries` and the
  caught exception; `status_code` and `response` are `None`.
* `httpError` — lines 155 and 162 (one shared shape): message mentions the
  HTTP status; `status_code` is the response status; `response` is the value
  of the local `error_data` if that name is bound, else `None`.
* `unexpectedError` — line 166: generic catch-all, message wraps `str(e)`;
  `status_code` and `response` are `None`.
* `retriesExhausted` — line 169, after the `while` loop: message mentions
  `self.max_retries`; `status_code` and `response` are `None`. -/
inductive ApiFailure where
  | connectionError (maxRetries : Int) (excMsg : String)
  | httpError (status : Nat) (errData : Option Json)
  | unexpectedError (excMsg : String)
  | retriesExhausted (maxRetries : Int)

/-- The `status_code` attribute of the raised `ClickUpAPIError` (`None`
unless the raise site passed one). -/
def ApiFailure.statusCode : ApiFailure → Option Nat
  | .httpError s _ => some s
  | _ => none

/-- Client configuration fixed in `ClickUpClient.__init__`:
`max_retries` (a Python `int`, so modelled as `Int`) and `retry_delay`. -/
structure ReqConfig where
  maxRetries : Int
  retryDelay : Rat
deriving DecidableEq, Repr

/-- The mutable local state of one `_make_request` call at the top of the
`while` loop: `retry_count`, the binding of the local name `error_data`
(which, once assigned at line 143, persists across later loop iterations in
Python function scope — `none` while unbound), plus the observable trace so
far (number of `requests.request` calls made, `time.sleep` durations). -/
structure ReqState where
  retryCount : Int
  errorData : Option Json
  attempts : Nat
  sleeps : List Rat

/-- The observable result of one `_make_request` call: the outcome (returned
JSON or raised `ClickUpAPIError`), total transport attempts, and all sleep
durations in order. -/
structure ReqResult where
  outcome : Except ApiFailure Json
  attempts : Nat
  sleeps : List Rat

/-- The backoff sleep duration
`self.retry_delay * (2 ** (retry_count - 1)) + random.uniform(0, 1)`
(lines 135 and 157), computed for the already-incremented `retry_count`
(which is at least 1 on every reachable use, so the `Nat` exponent
`(rc - 1).toNat` agrees with Python). -/
def backoffSleep (cfg : ReqConfig) (rc : Int) (jitter : Rat) : Rat :=
  cfg.retryDelay * 2 ^ (rc - 1).toNat + jitter

/-- One iteration of the `while retry_count <= self.max_retries` loop of
`_make_request` (lines 105-169), from state `st`.

`.inl r` means the call finished with result `r` (a `return` or a `raise`,
or the loop guard failed and line 169 raised); `.inr st'` means the
iteration ended with `continue` (line 121) or fell through after a backoff
sleep, and the loop re-enters with state `st'`. -/
def step (cfg : ReqConfig) (env : Nat → HttpEvent) (jit : Nat → Rat)
    (st : ReqState) : Sum ReqResult ReqState :=
  if st.retryCount > cfg.maxRetries then
    -- loop guard fails: line 169 raises the generic exhaustion error
    .inl ⟨.error (.retriesExhausted cfg.maxRetries), st.attempts, st.sleeps⟩
  else
    match env st.attempts with
    | .response status retryAfterHdr body =>
      let a' := st.attempts + 1
      if status = 429 then
        -- lines 116-121: sleep Retry-After (default 60), count the attempt
        let retryAfter : Int := retryAfterHdr.getD 60
        .inr ⟨st.retryCount + 1, st.errorData, a',
              st.sleeps ++ [(retryAfter : Rat)]⟩
      else if 400 ≤ status ∧ status < 600 then
        -- line 124 raises HTTPError, handled at lines 139-162
        -- line 143: error_data is rebound only when response.json() succeeds
        let errData := match body with
          | some j => some j
          | none => st.errorData
        if 500 ≤ status then
          -- lines 151-159: server error, retried with backoff
          let rc' := st.retryCount + 1
          if rc' > cfg.maxRetries then
            .inl ⟨.error (.httpError status errData), a', st.sleeps⟩
          else
            .inr ⟨rc', errData, a',
                  st.sleeps ++ [backoffSleep cfg rc' (jit st.attempts)]⟩
        else
          -- lines 160-162: client error, raised immediately
          .inl ⟨.error (.httpError status errData), a', st.sleeps⟩
      else
        -- line 126: return response.json(); a decode failure falls to the
        -- generic handler at lines 164-166
        match body with
        | some j => .inl ⟨.ok j, a', st.sleeps⟩
        | none => .inl ⟨.error (.unexpectedError jsonDecodeMsg), a', st.sleeps⟩
    | .connError msg =>
      -- lines 128-137
      let a' := st.attempts + 1
      let rc' := st.retryCount + 1
      if rc' > cfg.maxRetries then
        .inl ⟨.error (.connectionError cfg.maxRetries msg), a', st.sleeps⟩
      else
        .inr ⟨rc', st.errorData, a',
              st.sleeps ++ [backoffSleep cfg rc' (jit st.attempts)]⟩
    | .otherExc msg =>
      -- lines 164-166
      .inl ⟨.error (.unexpectedError msg), st.attempts + 1, st.sleeps⟩

/-- Iterate `step` to a final result.  The fuel is only a termination
device: `_make_request` supplies fuel `(maxRetries + 1).toNat`, and since
every `.inr` step increments `retryCount` (see `step_inr_retryCount`), the
fuel reaches 0 only when `retryCount > maxRetries`, where the 0-fuel value
is exactly the guard-failure value of `step` (see `runFrom_zero` and
`runFrom_fuel_succ`). -/
def runFrom (cfg : ReqConfig) (env : Nat → HttpEvent) (jit : Nat → Rat) :
    ReqState → Nat → ReqResult
  | st, 0 => ⟨.error (.retriesExhausted cfg.maxRetries), st.attempts, st.sleeps⟩
  | st, fuel + 1 =>
    match step cfg env jit st with
    | .inl r => r
    | .inr st' => runFrom cfg env jit st' fuel

/-- One logical call to `ClickUpClient._make_request`: `retry_count` starts
at 0 (line 103), the local `error_data` is unbound, and the loop runs while
`retry_count <= max_retries`. -/
def _make_request (cfg : ReqConfig) (env : Nat → HttpEvent)
    (jit : Nat → Rat) : ReqResult :=
  runFrom cfg env jit ⟨0, none, 0, []⟩ (cfg.maxRetries + 1).toNat

example :
    _make_request ⟨0, 1⟩ (fun _ => .response 200 none (some (.str "x")))
      (fun _ => 0) = ⟨.ok (.str "x"), 1, []⟩ := by rfl

example :
    _make_request ⟨0, 1⟩ (fun _ => .response 429 (some 2) none)
      (fun _ => 0) = ⟨.error (.retriesExhausted 0), 1, [2]⟩ := by rfl

example :
    _make_request ⟨2, 1⟩ (fun _ => .connError "refused")
      (fun _ => 0) = ⟨.error (.connectionError 2 "refused"), 3, [1, 2]⟩ := by
  simp [_make_request, runFrom, step, backoffSleep]

/-- A `.inr` result of `step` (the loop body ended with `continue` or fell
through after a sleep) can only arise when the loop guard passed, and it
increments both `retry_count` and the attempt counter by exactly one. -/
theorem step_inr_retryCount (cfg : ReqConfig) (env : Nat → HttpEvent)
    (jit : Nat → Rat) (st st' : ReqState)
    (h : step cfg env jit st = .inr st') :
    st.retryCount ≤ cfg.maxRetries ∧ st'.retryCount = st.retryCount + 1 ∧
      st'.attempts = st.attempts + 1 := by
  unfold step at h
  split at h
  · exact absurd h (by simp)
  · next hle =>
    refine ⟨by omega, ?_⟩
    split at h
    · next status ra body heq =>
      simp only [] at h
      split at h
      · cases h
        exact ⟨rfl, rfl⟩
      · split at h
        · split at h
          · split at h
            · exact absurd h (by simp)
            · cases h
              exact ⟨rfl, rfl⟩
          · exact absurd h (by simp)
        · rcases body with _ | j <;> simp at h
    · next msg heq =>
      simp only [] at h
      split at h
      · exact absurd h (by simp)
      · cases h
        exact ⟨rfl, rfl⟩
    · next msg heq => exact absurd h (by simp)

/-- Unfolding equation for `runFrom` at zero fuel. -/
theorem runFrom_zero (cfg : ReqConfig) (env : Nat → HttpEvent)
    (jit : Nat → Rat) (st : ReqState) :
    runFrom cfg env jit st 0 =
      ⟨.error (.retriesExhausted cfg.maxRetries), st.attempts, st.sleeps⟩ := rfl

/-- Unfolding equation for `runFrom` at successor fuel. -/
theorem runFrom_succ (cfg : ReqConfig) (env : Nat → HttpEvent)
    (jit : Nat → Rat) (st : ReqState) (fuel : Nat) :
    runFrom cfg env jit st (fuel + 1) =
      match step cfg env jit st with
      | .inl r => r
      | .inr st' => runFrom cfg env jit st' fuel := rfl

/-- Fuel above the loop bound is irrelevant: as soon as the fuel covers the
remaining retry budget `maxRetries + 1 - retry_count`, adding more fuel does
not change the result, so `_make_request`'s fuel `(maxRetries + 1).toNat` is
enough and the fuel is no more than a termination device for the source's
`while` loop. -/
theorem runFrom_fuel_succ (cfg : ReqConfig) (env : Nat → HttpEvent)
    (jit : Nat → Rat) :
    ∀ (fuel : Nat) (st : ReqState),
      cfg.maxRetries + 1 - st.retryCount ≤ (fuel : Int) →
      runFrom cfg env jit st (fuel + 1) = runFrom cfg env jit st fuel := by
  intro fuel
  induction fuel with
  | zero =>
    intro st hb
    have hgt : st.retryCount > cfg.maxRetries := by omega
    simp [runFrom, step, hgt]
  | succ f ih =>
    intro st hb
    rw [runFrom_succ, runFrom_succ]
    rcases hstep : step cfg env jit st with r | st'
    · rfl
    · obtain ⟨h1, h2, _⟩ := step_inr_retryCount cfg env jit st st' hstep
      exact ih st' (by omega)

/-- Claim C3: an attempt of `_make_request` that receives an HTTP 429
response sleeps exactly the `Retry-After` header value (60 seconds when the
header is absent) — not the exponential backoff delay — increments the
attempt counter by one and continues the loop, so the 429 wait is one more
attempt counted against `max_retries` by the loop guard. -/
theorem attempt_429_sleeps_retry_after (cfg : ReqConfig)
    (env : Nat → HttpEvent) (jit : Nat → Rat) (st : ReqState)
    (ra : Option Int) (b : Option Json)
    (hguard : st.retryCount ≤ cfg.maxRetries)
    (henv : env st.attempts = .response 429 ra b) :
    step cfg env jit st =
      .inr ⟨st.retryCount + 1, st.errorData, st.attempts + 1,
            st.sleeps ++ [((ra.getD 60 : Int) : Rat)]⟩ := by
  have hg : ¬ (st.retryCount > cfg.maxRetries) := by omega
  simp [step, henv, hg]

/-- Witness for claim C3 at a concrete input. -/
theorem attempt_429_sleeps_retry_after_witness :
    step ⟨3, 1⟩ (fun _ => .response 429 (some 2) none) (fun _ => 0)
      ⟨0, none, 0, []⟩ = .inr ⟨1, none, 1, [2]⟩ := by
  have h := attempt_429_sleeps_retry_after ⟨3, 1⟩
    (fun _ => .response 429 (some 2) none) (fun _ => 0)
    ⟨0, none, 0, []⟩ (some 2) none (by decide) rfl
  simpa using h

/-- The value of the Python local `error_data` after the handler at lines
141-146 ran for a response whose decoded body is `b`, given the previous
binding `old` of that local: rebound on a successful decode, unchanged (the
stale previous binding, `none` while never bound) otherwise. -/
def rebindErrorData (b old : Option Json) : Option Json :=
  match b with
  | some j => some j
  | none => old

/-- Claim C4 (amended): an attempt that receives a 5xx response increments
the attempt counter; if the incremented counter exceeds `max_retries` the
call fails with the HTTP-error failure carrying the status and the most
recently decoded JSON error body of the call (the Python local `error_data`
keeps its previous binding when the current body fails to decode, so the
body is omitted only when no earlier 5xx/4xx body of this call decoded
either); otherwise the client sleeps `base_delay * 2^(attempt-1)` plus the
drawn jitter and retries. -/
theorem attempt_5xx_backoff_or_server_error (cfg : ReqConfig)
    (env : Nat → HttpEvent) (jit : Nat → Rat) (st : ReqState)
    (s : Nat) (ra : Option Int) (b : Option Json)
    (hguard : st.retryCount ≤ cfg.maxRetries)
    (henv : env st.attempts = .response s ra b)
    (h5 : 500 ≤ s) (h6 : s < 600) :
    step cfg env jit st =
      if st.retryCount + 1 > cfg.maxRetries then
        .inl ⟨.error (.httpError s (rebindErrorData b st.errorData)),
              st.attempts + 1, st.sleeps⟩
      else
        .inr ⟨st.retryCount + 1, rebindErrorData b st.errorData,
              st.attempts + 1,
              st.sleeps ++
                [backoffSleep cfg (st.retryCount + 1) (jit st.attempts)]⟩ := by
  have hg : ¬ (st.retryCount > cfg.maxRetries) := by omega
  have h429 : ¬ (s = 429) := by omega
  have h4 : 400 ≤ s := by omega
  rcases b with _ | j <;>
    simp [step, henv, hg, h429, h4, h6, h5, rebindErrorData]

/-- Witness for claim C4 (amended) at a concrete input (budget exhausted,
body decodes). -/
theorem attempt_5xx_backoff_or_server_error_witness :
    step ⟨0, 1⟩ (fun _ => .response 503 none (some (.str "e"))) (fun _ => 0)
      ⟨0, none, 0, []⟩ =
      .inl ⟨.error (.httpError 503 (some (.str "e"))), 1, []⟩ := by
  have h := attempt_5xx_backoff_or_server_error ⟨0, 1⟩
    (fun _ => .response 503 none (some (.str "e"))) (fun _ => 0)
    ⟨0, none, 0, []⟩ 503 none (some (.str "e")) (by decide) rfl
    (by decide) (by decide)
  simpa using h

/-- Environment refuting claim C4 as stated: the first attempt gets a 500
whose body decodes, the second a 500 whose body does not decode. -/
def staleBodyEnv : Nat → HttpEvent := fun i =>
  if i = 0 then .response 500 none (some (.obj [("err", .str "boom")]))
  else .response 500 none none

/-- Counterexample to claim C4 as stated: with `max_retries = 1` and
`staleBodyEnv`, the final 500 body is not valid JSON, yet the raised
failure carries the previous attempt's decoded body instead of omitting
it — the stale Python local `error_data` survives the loop iteration. -/
theorem server_error_stale_body_cex :
    _make_request ⟨1, 1⟩ staleBodyEnv (fun _ => 0) =
      ⟨.error (.httpError 500 (some (.obj [("err", .str "boom")]))), 2, [1]⟩ ∧
    some (Json.obj [("err", Json.str "boom")]) ≠ (none : Option Json) := by
  constructor
  · simp [_make_request, runFrom, step, staleBodyEnv, backoffSleep]
  · simp

/-- Claim C5 (amended): an attempt that receives a 2xx response returns the
decoded JSON mapping unchanged when the body decodes, and when the body
fails to decode the call fails immediately (no retry, no sleep) through the
generic catch-all raise of lines 164-166 — the same `Unexpected`-shaped
failure used for any other unexpected error, with no dedicated
protocol-error kind. -/
theorem success_2xx_json_or_unexpected (cfg : ReqConfig)
    (env : Nat → HttpEvent) (jit : Nat → Rat) (st : ReqState)
    (s : Nat) (ra : Option Int) (b : Option Json)
    (hguard : st.retryCount ≤ cfg.maxRetries)
    (henv : env st.attempts = .response s ra b)
    (h2 : 200 ≤ s) (h3 : s < 300) :
    step cfg env jit st =
      .inl ⟨(match b with
              | some j => Except.ok j
              | none => Except.error (.unexpectedError jsonDecodeMsg)),
            st.attempts + 1, st.sleeps⟩ := by
  have hg : ¬ (st.retryCount > cfg.maxRetries) := by omega
  have h429 : ¬ (s = 429) := by omega
  have hrange : ¬ (400 ≤ s ∧ s < 600) := by omega
  rcases b with _ | j <;> simp [step, henv, hg, h429, hrange]

/-- Witness for claim C5 (amended) at a concrete input (body decodes and is
returned unchanged). -/
theorem success_2xx_json_or_unexpected_witness :
    step ⟨3, 1⟩ (fun _ => .response 200 none (some (.str "x"))) (fun _ => 0)
      ⟨0, none, 0, []⟩ = .inl ⟨.ok (.str "x"), 1, []⟩ := by
  have h := success_2xx_json_or_unexpected ⟨3, 1⟩
    (fun _ => .response 200 none (some (.str "x"))) (fun _ => 0)
    ⟨0, none, 0, []⟩ 200 none (some (.str "x")) (by decide) rfl
    (by decide) (by decide)
  simpa using h

/-- Counterexample to claim C5 as stated: a 2xx body that fails to decode
produces exactly the same failure value — the generic catch-all failure
with no status code — as a transport attempt that raises an arbitrary
unexpected exception with the same text, so the failure is not of a
dedicated protocol-error kind distinguishable from the generic kind. -/
theorem success_2xx_bad_json_cex :
    _make_request ⟨3, 1⟩ (fun _ => .response 200 none none) (fun _ => 0) =
      ⟨.error (.unexpectedError jsonDecodeMsg), 1, []⟩ ∧
    _make_request ⟨3, 1⟩ (fun _ => .otherExc jsonDecodeMsg) (fun _ => 0) =
      ⟨.error (.unexpectedError jsonDecodeMsg), 1, []⟩ ∧
    (ApiFailure.unexpectedError jsonDecodeMsg).statusCode = none :=
  ⟨rfl, rfl, rfl⟩

/-- Claim C6: a call whose first attempt receives a 4xx response other than
429 fails on that first attempt with the HTTP-error failure carrying the
status (kind `ClientError` in the taxonomy of the specification), with one
attempt, zero sleeps and no retry, for every non-negative `max_retries`. -/
theorem client_error_first_attempt (cfg : ReqConfig)
    (env : Nat → HttpEvent) (jit : Nat → Rat)
    (s : Nat) (ra : Option Int) (b : Option Json)
    (hmr : 0 ≤ cfg.maxRetries) (henv : env 0 = .response s ra b)
    (h4 : 400 ≤ s) (h5 : s < 500) (hn : s ≠ 429) :
    _make_request cfg env jit = ⟨.error (.httpError s b), 1, []⟩ := by
  have hf : (cfg.maxRetries + 1).toNat = cfg.maxRetries.toNat + 1 := by omega
  have hg : ¬ ((0 : Int) > cfg.maxRetries) := by omega
  have h6 : s < 600 := by omega
  have h7 : ¬ (500 ≤ s) := by omega
  unfold _make_request
  rw [hf, runFrom_succ]
  rcases b with _ | j <;> simp [step, henv, hg, hn, h4, h6, h7]

/-- Witness for claim C6 at a concrete input: a 404 on the first attempt. -/
theorem client_error_first_attempt_witness :
    _make_request ⟨3, 1⟩ (fun _ => .response 404 none none) (fun _ => 0) =
      ⟨.error (.httpError 404 none), 1, []⟩ := by
  have h := client_error_first_attempt ⟨3, 1⟩
    (fun _ => .response 404 none none) (fun _ => 0) 404 none none
    (by decide) rfl (by decide) (by decide) (by decide)
  simpa using h

/-- Unfolding `runFrom` when the iteration finishes. -/
theorem runFrom_succ_of_step_inl (cfg : ReqConfig) (env : Nat → HttpEvent)
    (jit : Nat → Rat) (st : ReqState) (fuel : Nat) (r : ReqResult)
    (h : step cfg env jit st = .inl r) :
    runFrom cfg env jit st (fuel + 1) = r := by
  rw [runFrom_succ, h]

/-- Unfolding `runFrom` when the iteration continues. -/
theorem runFrom_succ_of_step_inr (cfg : ReqConfig) (env : Nat → HttpEvent)
    (jit : Nat → Rat) (st st' : ReqState) (fuel : Nat)
    (h : step cfg env jit st = .inr st') :
    runFrom cfg env jit st (fuel + 1) = runFrom cfg env jit st' fuel := by
  rw [runFrom_succ, h]

/-- Splitting the first element off a mapped `List.range`. -/
theorem range_map_succ {α : Type} (f : Nat → α) (n : Nat) :
    (List.range (n + 1)).map f =
      f 0 :: (List.range n).map fun i => f (i + 1) := by
  rw [List.range_succ_eq_map, List.map_cons, List.map_map]
  rfl

/-- Helper: the loop body on a 429 response, from any state passing the
guard (shared shape of claim C3, reused by whole-run lemmas). -/
theorem step_429_eq (cfg : ReqConfig) (env : Nat → HttpEvent)
    (jit : Nat → Rat) (st : ReqState) (ra : Option Int) (b : Option Json)
    (hguard : st.retryCount ≤ cfg.maxRetries)
    (henv : env st.attempts = .response 429 ra b) :
    step cfg env jit st =
      .inr ⟨st.retryCount + 1, st.errorData, st.attempts + 1,
            st.sleeps ++ [((ra.getD 60 : Int) : Rat)]⟩ := by
  have hg : ¬ (st.retryCount > cfg.maxRetries) := by omega
  simp [step, henv, hg]

/-- Helper for claim C1: from a loop state whose remaining budget is
exactly `fuel`, an environment answering 429 on every attempt drives the
loop to the guard exit of line 169, sleeping each attempt's Retry-After
value (60 when absent). -/
theorem runFrom_all_429 (cfg : ReqConfig) (env : Nat → HttpEvent)
    (jit : Nat → Rat) (ra : Nat → Option Int) (b : Nat → Option Json)
    (henv : ∀ i, env i = .response 429 (ra i) (b i)) :
    ∀ (fuel : Nat) (st : ReqState),
      st.retryCount + fuel = cfg.maxRetries + 1 →
      runFrom cfg env jit st fuel =
        ⟨.error (.retriesExhausted cfg.maxRetries), st.attempts + fuel,
         st.sleeps ++ (List.range fuel).map
           fun i => (((ra (st.attempts + i)).getD 60 : Int) : Rat)⟩ := by
  intro fuel
  induction fuel with
  | zero =>
    intro st h
    simp [runFrom_zero]
  | succ f ih =>
    intro st h
    have hguard : st.retryCount ≤ cfg.maxRetries := by push_cast at h; omega
    rw [runFrom_succ_of_step_inr cfg env jit st _ f
        (step_429_eq cfg env jit st (ra st.attempts) (b st.attempts) hguard
          (henv st.attempts))]
    rw [ih ⟨st.retryCount + 1, st.errorData, st.attempts + 1,
           st.sleeps ++ [(((ra st.attempts).getD 60 : Int) : Rat)]⟩
        (by show st.retryCount + 1 + (f : Int) = cfg.maxRetries + 1
            push_cast at h ⊢; omega)]
    have hfun : ∀ i : Nat, st.attempts + 1 + i = st.attempts + (i + 1) :=
      fun i => by omega
    rw [range_map_succ]
    simp only [ReqResult.mk.injEq, Nat.add_zero, List.append_assoc,
      List.singleton_append, hfun]

/-- Claim C1 (amended): when every attempt of a call receives HTTP 429 and
the retry budget is exhausted, the call fails through the generic line-169
"retries exhausted" raise — a failure carrying no status code and no
rate-limit marker (the code has no rate-limit-specific failure kind) —
after `1 + max_retries` attempts, sleeping each server-supplied
Retry-After value (60 when the header is absent). -/
theorem rate_limited_exhaustion_generic (cfg : ReqConfig)
    (env : Nat → HttpEvent) (jit : Nat → Rat)
    (ra : Nat → Option Int) (b : Nat → Option Json)
    (hmr : 0 ≤ cfg.maxRetries)
    (henv : ∀ i, env i = .response 429 (ra i) (b i)) :
    _make_request cfg env jit =
      ⟨.error (.retriesExhausted cfg.maxRetries),
       (cfg.maxRetries + 1).toNat,
       (List.range (cfg.maxRetries + 1).toNat).map
         fun i => (((ra i).getD 60 : Int) : Rat)⟩ ∧
    (ApiFailure.retriesExhausted cfg.maxRetries).statusCode = none := by
  refine ⟨?_, rfl⟩
  unfold _make_request
  rw [runFrom_all_429 cfg env jit ra b henv _ _ (by
    show (0 : Int) + ((cfg.maxRetries + 1).toNat : Int) = cfg.maxRetries + 1
    omega)]
  simp

/-- Witness for claim C1 (amended) at a concrete input: three attempts all
answered 429 with Retry-After 2, budget `max_retries = 2`. -/
theorem rate_limited_exhaustion_generic_witness :
    _make_request ⟨2, 1⟩ (fun _ => .response 429 (some 2) none)
      (fun _ => 0) =
      ⟨.error (.retriesExhausted 2), 3, [2, 2, 2]⟩ ∧
    (ApiFailure.retriesExhausted 2).statusCode = none := by
  have h := rate_limited_exhaustion_generic ⟨2, 1⟩
    (fun _ => .response 429 (some 2) none) (fun _ => 0)
    (fun _ => some 2) (fun _ => none) (by decide) (fun i => rfl)
  simpa [List.range_succ] using h

/-- Counterexample to claim C1 as stated: with `max_retries = 0` and a 429
on the only attempt, the call fails with the line-169 generic failure,
which carries no status code; the same constructor is also the failure of a
call that never sees any 429 response (negative `max_retries`, zero
attempts), so the failure identifies no rate-limit condition. -/
theorem rate_limited_exhaustion_cex :
    _make_request ⟨0, 1⟩ (fun _ => .response 429 (some 7) none)
      (fun _ => 0) = ⟨.error (.retriesExhausted 0), 1, [7]⟩ ∧
    (ApiFailure.retriesExhausted 0).statusCode = none ∧
    _make_request ⟨-1, 1⟩ (fun _ => .otherExc "unused") (fun _ => 0) =
      ⟨.error (.retriesExhausted (-1)), 0, []⟩ :=
  ⟨rfl, rfl, rfl⟩

/-- Every terminal (`.inl`) iteration whose loop guard passed produces an
outcome other than the generic line-169 exhaustion failure: the guard exit
is the only site producing `retriesExhausted`. -/
theorem step_inl_outcome_ne_exhausted (cfg : ReqConfig)
    (env : Nat → HttpEvent) (jit : Nat → Rat) (st : ReqState)
    (r : ReqResult) (h : step cfg env jit st = .inl r)
    (hguard : st.retryCount ≤ cfg.maxRetries) :
    ∀ m, r.outcome ≠ .error (.retriesExhausted m) := by
  intro m
  unfold step at h
  split at h
  · omega
  · split at h
    · next status ra body heq =>
      simp only [] at h
      split at h
      · cases h
      · split at h
        · split at h
          · split at h
            · cases h; simp
            · cases h
          · cases h; simp
        · rcases body with _ | j
          · cases h; simp
          · cases h; simp
    · next msg heq =>
      simp only [] at h
      split at h
      · cases h; simp
      · cases h
    · next msg heq => cases h; simp

/-- A continuing (`.inr`) iteration that did not see a 429 response leaves
`retry_count` within the budget: the 5xx and connection `continue` paths
re-check `retry_count <= max_retries` after the increment. -/
theorem step_inr_le_of_no429 (cfg : ReqConfig) (env : Nat → HttpEvent)
    (jit : Nat → Rat) (st st' : ReqState)
    (h : step cfg env jit st = .inr st')
    (h429 : ∀ ra b, env st.attempts ≠ HttpEvent.response 429 ra b) :
    st'.retryCount ≤ cfg.maxRetries := by
  unfold step at h
  split at h
  · cases h
  · split at h
    · next status ra body heq =>
      simp only [] at h
      split at h
      · next hs =>
        rw [hs] at heq
        exact absurd heq (h429 ra body)
      · split at h
        · split at h
          · split at h
            · cases h
            · next hle =>
              cases h
              show st.retryCount + 1 ≤ cfg.maxRetries
              omega
          · cases h
        · rcases body with _ | j <;> cases h
    · next msg heq =>
      simp only [] at h
      split at h
      · cases h
      · next hle =>
        cases h
        show st.retryCount + 1 ≤ cfg.maxRetries
        omega
    · next msg heq => cases h

/-- Helper for claim C2: with no 429 response from the environment, the
loop never reaches the guard exit: from any in-budget state with enough
fuel, the outcome is never the generic line-169 exhaustion failure. -/
theorem runFrom_no_429_ne_exhausted (cfg : ReqConfig)
    (env : Nat → HttpEvent) (jit : Nat → Rat)
    (h429 : ∀ i ra b, env i ≠ HttpEvent.response 429 ra b) :
    ∀ (fuel : Nat) (st : ReqState),
      st.retryCount ≤ cfg.maxRetries →
      cfg.maxRetries + 1 - st.retryCount ≤ (fuel : Int) →
      ∀ m, (runFrom cfg env jit st fuel).outcome ≠
        .error (.retriesExhausted m) := by
  intro fuel
  induction fuel with
  | zero =>
    intro st h1 h2 m
    exact absurd h2 (by push_cast; omega)
  | succ f ih =>
    intro st h1 h2 m
    rcases hstep : step cfg env jit st with r | st'
    · rw [runFrom_succ_of_step_inl cfg env jit st f r hstep]
      exact step_inl_outcome_ne_exhausted cfg env jit st r hstep h1 m
    · rw [runFrom_succ_of_step_inr cfg env jit st st' f hstep]
      obtain ⟨hle, hrc, _⟩ := step_inr_retryCount cfg env jit st st' hstep
      have hle' := step_inr_le_of_no429 cfg env jit st st' hstep
        (fun ra b => h429 st.attempts ra b)
      exact ih st' hle' (by push_cast at h2 ⊢; omega) m

/-- Claim C2 (amended): for `max_retries >= 1`, a call in which no attempt
receives a 429 response never exits the retry loop without returning a
success or raising a classified failure — its outcome is never the generic
line-169 "retries exhausted" failure.  (As stated the claim is false: the
429 path increments `retry_count` without raising, so an all-429 run
exhausts the loop and reaches the generic fallback even with
`max_retries >= 1`; see the counterexample.) -/
theorem no_429_never_generic_exhaustion (cfg : ReqConfig)
    (env : Nat → HttpEvent) (jit : Nat → Rat)
    (hmr : 1 ≤ cfg.maxRetries)
    (h429 : ∀ i ra b, env i ≠ HttpEvent.response 429 ra b) :
    ∀ m, (_make_request cfg env jit).outcome ≠
      .error (.retriesExhausted m) := by
  intro m
  unfold _make_request
  exact runFrom_no_429_ne_exhausted cfg env jit h429 _ _
    (show (0 : Int) ≤ cfg.maxRetries by omega)
    (show cfg.maxRetries + 1 - (0 : Int) ≤
        (((cfg.maxRetries + 1).toNat : Nat) : Int) by omega) m

/-- Witness for claim C2 (amended) at a concrete input: connection errors
only, `max_retries = 1`. -/
theorem no_429_never_generic_exhaustion_witness :
    (_make_request ⟨1, 1⟩ (fun _ => .connError "refused")
        (fun _ => 0)).outcome ≠ .error (.retriesExhausted 1) :=
  no_429_never_generic_exhaustion ⟨1, 1⟩ (fun _ => .connError "refused")
    (fun _ => 0) (by decide) (by intro i ra b h; cases h) 1

/-- Counterexample to claim C2 as stated: with `max_retries = 1` and a 429
on both attempts, the loop exits normally and the supposedly unreachable
generic fallback of line 169 is reached. -/
theorem loop_exit_with_retries_cex :
    _make_request ⟨1, 1⟩ (fun _ => .response 429 (some 2) none)
      (fun _ => 0) = ⟨.error (.retriesExhausted 1), 2, [2, 2]⟩ :=
  rfl

/-- Helper: the loop body on a connection/timeout error, from any state
passing the guard. -/
theorem step_connError_eq (cfg : ReqConfig) (env : Nat → HttpEvent)
    (jit : Nat → Rat) (st : ReqState) (msg : String)
    (hguard : st.retryCount ≤ cfg.maxRetries)
    (henv : env st.attempts = .connError msg) :
    step cfg env jit st =
      if st.retryCount + 1 > cfg.maxRetries then
        .inl ⟨.error (.connectionError cfg.maxRetries msg),
              st.attempts + 1, st.sleeps⟩
      else
        .inr ⟨st.retryCount + 1, st.errorData, st.attempts + 1,
              st.sleeps ++
                [backoffSleep cfg (st.retryCount + 1) (jit st.attempts)]⟩ := by
  have hg : ¬ (st.retryCount > cfg.maxRetries) := by omega
  simp [step, henv, hg]

/-- Helper for claim C7: from a loop state whose `retry_count` equals its
attempt count and whose remaining budget is exactly `f + 1`, an environment
raising a connection error on every attempt makes `f + 1` further attempts,
sleeping the exponential backoff after each non-final one, and fails with
the connection failure of line 132. -/
theorem runFrom_all_connError (cfg : ReqConfig) (env : Nat → HttpEvent)
    (jit : Nat → Rat) (m : Nat → String)
    (henv : ∀ i, env i = .connError (m i)) :
    ∀ (f : Nat) (st : ReqState),
      st.retryCount = (st.attempts : Int) →
      (st.attempts : Int) + f + 1 = cfg.maxRetries + 1 →
      runFrom cfg env jit st (f + 1) =
        ⟨.error (.connectionError cfg.maxRetries (m (st.attempts + f))),
         st.attempts + f + 1,
         st.sleeps ++ (List.range f).map
           fun (i : Nat) => backoffSleep cfg ((st.attempts : Int) + i + 1)
             (jit (st.attempts + i))⟩ := by
  intro f
  induction f with
  | zero =>
    intro st h1 h2
    rw [runFrom_succ_of_step_inl cfg env jit st 0 _
      ((step_connError_eq cfg env jit st (m st.attempts) (by omega)
        (henv st.attempts)).trans (if_pos (by omega)))]
    simp
  | succ f ih =>
    intro st h1 h2
    rw [runFrom_succ_of_step_inr cfg env jit st _ (f + 1)
      ((step_connError_eq cfg env jit st (m st.attempts) (by omega)
        (henv st.attempts)).trans (if_neg (by omega)))]
    rw [ih ⟨st.retryCount + 1, st.errorData, st.attempts + 1,
          st.sleeps ++ [backoffSleep cfg (st.retryCount + 1)
            (jit st.attempts)]⟩
        (by show st.retryCount + 1 = ((st.attempts + 1 : Nat) : Int)
            push_cast; omega)
        (by show ((st.attempts + 1 : Nat) : Int) + f + 1 = cfg.maxRetries + 1
            push_cast at h2 ⊢; omega)]
    have hj : ∀ i : Nat, st.attempts + 1 + i = st.attempts + (i + 1) :=
      fun i => by omega
    have hb : ∀ i : Nat,
        ((st.attempts + 1 : Nat) : Int) + i + 1 =
          (st.attempts : Int) + (i + 1) + 1 :=
      fun i => by push_cast; ring
    rw [range_map_succ]
    simp only [ReqResult.mk.injEq, Nat.add_zero, Nat.cast_zero, Int.add_zero,
      List.append_assoc, List.singleton_append, hj, hb, h1]
    simp

/-- Claim C7: with non-negative `max_retries` and a connection or timeout
error on every attempt, exactly `1 + max_retries` attempts are made, each
non-final one followed by an exponential-backoff-with-jitter sleep, and the
call then fails with the connection failure of line 132 (kind
`ConnectionFailure`); in particular `max_retries = 0` gives a single
attempt and immediate failure. -/
theorem conn_error_exhaustion (cfg : ReqConfig) (env : Nat → HttpEvent)
    (jit : Nat → Rat) (m : Nat → String)
    (hmr : 0 ≤ cfg.maxRetries)
    (henv : ∀ i, env i = .connError (m i)) :
    _make_request cfg env jit =
      ⟨.error (.connectionError cfg.maxRetries (m cfg.maxRetries.toNat)),
       cfg.maxRetries.toNat + 1,
       (List.range cfg.maxRetries.toNat).map
         fun (i : Nat) => backoffSleep cfg ((i : Int) + 1) (jit i)⟩ := by
  have hf : (cfg.maxRetries + 1).toNat = cfg.maxRetries.toNat + 1 := by omega
  unfold _make_request
  rw [hf, runFrom_all_connError cfg env jit m henv cfg.maxRetries.toNat
    ⟨0, none, 0, []⟩ (by simp)
    (by show ((0 : Nat) : Int) + (cfg.maxRetries.toNat : Int) + 1 =
          cfg.maxRetries + 1
        omega)]
  simp

/-- Witness for claim C7 at a concrete input: `max_retries = 2`, connection
refused on all three attempts, zero jitter, base delay 1. -/
theorem conn_error_exhaustion_witness :
    _make_request ⟨2, 1⟩ (fun _ => .connError "refused") (fun _ => 0) =
      ⟨.error (.connectionError 2 "refused"), 3, [1, 2]⟩ := by
  have h := conn_error_exhaustion ⟨2, 1⟩ (fun _ => .connError "refused")
    (fun _ => 0) (fun _ => "refused") (by decide) (fun i => rfl)
  rw [h]
  norm_num [backoffSleep, show (2 : Int).toNat = 2 from rfl, List.range_succ]

/-- Every terminal (`.inl`) iteration reports at most one more attempt than
its starting state had made. -/
theorem step_inl_attempts_le (cfg : ReqConfig) (env : Nat → HttpEvent)
    (jit : Nat → Rat) (st : ReqState) (r : ReqResult)
    (h : step cfg env jit st = .inl r) :
    r.attempts ≤ st.attempts + 1 := by
  unfold step at h
  split at h
  · cases h
    show st.attempts ≤ st.attempts + 1
    omega
  · split at h
    · next status ra body heq =>
      simp only [] at h
      split at h
      · cases h
      · split at h
        · split at h
          · split at h
            · cases h
              show st.attempts + 1 ≤ st.attempts + 1
              omega
            · cases h
          · cases h
            show st.attempts + 1 ≤ st.attempts + 1
            omega
        · rcases body with _ | j
          · cases h
            show st.attempts + 1 ≤ st.attempts + 1
            omega
          · cases h
            show st.attempts + 1 ≤ st.attempts + 1
            omega
    · next msg heq =>
      simp only [] at h
      split at h
      · cases h
        show st.attempts + 1 ≤ st.attempts + 1
        omega
      · cases h
    · next msg heq =>
      cases h
      show st.attempts + 1 ≤ st.attempts + 1
      omega

/-- Helper for claim C8: running the loop grows the attempt count by at
most the fuel. -/
theorem runFrom_attempts_le (cfg : ReqConfig) (env : Nat → HttpEvent)
    (jit : Nat → Rat) :
    ∀ (fuel : Nat) (st : ReqState),
      (runFrom cfg env jit st fuel).attempts ≤ st.attempts + fuel := by
  intro fuel
  induction fuel with
  | zero => intro st; exact Nat.le_refl _
  | succ f ih =>
    intro st
    rcases hstep : step cfg env jit st with r | st'
    · rw [runFrom_succ_of_step_inl cfg env jit st f r hstep]
      have := step_inl_attempts_le cfg env jit st r hstep
      omega
    · rw [runFrom_succ_of_step_inr cfg env jit st st' f hstep]
      obtain ⟨_, _, ha⟩ := step_inr_retryCount cfg env jit st st' hstep
      have := ih st'
      omega

/-- Claim C8: a call of `_make_request` terminates in exactly one outcome —
the embedding is a total function producing a single `ReqResult` — and the
number of transport attempts (loop iterations that issue a request) is
bounded by `max_retries + 1` clamped at zero: every continuing iteration
strictly increments `retry_count` (`step_inr_retryCount`), which the loop
guard bounds by `max_retries`. -/
theorem make_request_attempts_bound (cfg : ReqConfig)
    (env : Nat → HttpEvent) (jit : Nat → Rat) :
    (_make_request cfg env jit).attempts ≤ (cfg.maxRetries + 1).toNat := by
  have h := runFrom_attempts_le cfg env jit (cfg.maxRetries + 1).toNat
    ⟨0, none, 0, []⟩
  simpa using h

/-!
Embedding of `ClickUpClient.create_task_hierarchy` (lines 37-83).  The
function walks a task-structure dictionary: it creates the main task, then
for each entry of `"subtasks"` creates a subtask under the main task, and
for each entry of a subtask's own `"subtasks"` creates a nested subtask
under that subtask.  Each create call goes through the HTTP client;
the model makes the results an oracle `createEnv : Nat -> Except String
Task` answering the i-th create call of the walk (an `.error` models any
exception raised by the call, with its text).  A missing or empty
`"subtasks"` key is modelled by the empty list.
-/

/-- A node of the task structure passed to `create_task_hierarchy`: the
`"name"` and `"description"` fields the code reads, and the `"subtasks"`
list. -/
inductive TaskNode where
  | mk (name description : String) (subtasks : List TaskNode)

/-- The `"name"` field of a node. -/
def TaskNode.name : TaskNode → String
  | .mk n _ _ => n

/-- The `"description"` field of a node. -/
def TaskNode.description : TaskNode → String
  | .mk _ d _ => d

/-- The `"subtasks"` list of a node. -/
def TaskNode.subtasks : TaskNode → List TaskNode
  | .mk _ _ s => s

/-- A created task as used by the walk: the code reads only `task["id"]`
from the dict returned by `create_task`/`create_subtask` and passes the
main dict back to its caller; the model keeps the id. -/
structure TaskData where
  id : String
deriving DecidableEq, Repr

/-- One create call issued to the API: `create_task(list_id, name,
description)` for the main task, `create_subtask(parent_id, name,
description)` for (nested) subtasks. -/
inductive CreateCall where
  | task (listId name description : String)
  | subtask (parentId name description : String)
deriving DecidableEq, Repr

/-- Walk state: index of the next create call (the oracle answers call
number `i`) and the calls issued so far, in order. -/
structure HierState where
  nextCall : Nat
  calls : List CreateCall
deriving DecidableEq, Repr

/-- Issue one create call: record it and consume the next oracle answer. -/
def issueCreate (createEnv : Nat → Except String TaskData) (st : HierState)
    (c : CreateCall) : Except String TaskData × HierState :=
  (createEnv st.nextCall, ⟨st.nextCall + 1, st.calls ++ [c]⟩)

/-- The inner loop of lines 65-74: create one nested subtask per entry
under `parentId`; a failure is logged (line 74) and the loop moves to the
next entry.  The entries' own `"subtasks"` lists are never examined. -/
def processNested (createEnv : Nat → Except String TaskData)
    (parentId : String) : List TaskNode → HierState → HierState
  | [], st => st
  | n :: rest, st =>
    let p := issueCreate createEnv st (.subtask parentId n.name n.description)
    processNested createEnv parentId rest p.2

/-- The outer loop of lines 54-77: create one subtask per entry under the
main task; on success, walk its `"subtasks"` with `processNested`; on
failure, log (line 77) and continue with the next sibling. -/
def processSubtasks (createEnv : Nat → Except String TaskData)
    (mainId : String) : List TaskNode → HierState → HierState
  | [], st => st
  | sub :: rest, st =>
    let p := issueCreate createEnv st (.subtask mainId sub.name sub.description)
    let st' := match p.1 with
      | .ok subTask => processNested createEnv subTask.id sub.subtasks p.2
      | .error _ => p.2
    processSubtasks createEnv mainId rest st'

/-- `ClickUpClient.create_task_hierarchy`: create the main task (a failure
here is logged and re-raised by lines 81-83), walk the subtasks, and return
the main task dict (line 79).  The second component is the final walk
state: total calls issued and their order. -/
def create_task_hierarchy (createEnv : Nat → Except String TaskData)
    (listId : String) (ts : TaskNode) : Except String TaskData × HierState :=
  let p := issueCreate createEnv ⟨0, []⟩ (.task listId ts.name ts.description)
  match p.1 with
  | .error e => (.error e, p.2)
  | .ok mainTask =>
    (.ok mainTask, processSubtasks createEnv mainTask.id ts.subtasks p.2)

/-- The calls issued by the nested loop are exactly one per entry, in
order. -/
theorem processNested_calls (createEnv : Nat → Except String TaskData)
    (pid : String) :
    ∀ (ns : List TaskNode) (st : HierState),
      (processNested createEnv pid ns st).calls =
        st.calls ++ ns.map fun n => CreateCall.subtask pid n.name n.description
  | [], st => by simp [processNested]
  | n :: rest, st => by
    rw [processNested, processNested_calls createEnv pid rest]
    simp [issueCreate]

/-- The calls issued by the outer loop extend the state's calls with a list
containing, as a sublist, one direct-subtask create call per entry in
order. -/
theorem processSubtasks_calls_sublist (createEnv : Nat → Except String TaskData)
    (mainId : String) :
    ∀ (subs : List TaskNode) (st : HierState),
      ∃ extra,
        (processSubtasks createEnv mainId subs st).calls =
          st.calls ++ extra ∧
        List.Sublist
          (subs.map fun s => CreateCall.subtask mainId s.name s.description)
          extra
  | [], st => ⟨[], by simp [processSubtasks]⟩
  | sub :: rest, st => by
    rw [processSubtasks]
    rcases henv : (issueCreate createEnv st
        (.subtask mainId sub.name sub.description)).1 with e | subTask
    · obtain ⟨extra, hcalls, hsub⟩ := processSubtasks_calls_sublist createEnv
        mainId rest (issueCreate createEnv st
          (.subtask mainId sub.name sub.description)).2
      refine ⟨CreateCall.subtask mainId sub.name sub.description :: extra,
        ?_, ?_⟩
      · rw [hcalls]
        simp [issueCreate]
      · exact List.Sublist.cons₂ _ hsub
    · obtain ⟨extra, hcalls, hsub⟩ := processSubtasks_calls_sublist createEnv
        mainId rest (processNested createEnv subTask.id sub.subtasks
          (issueCreate createEnv st
            (.subtask mainId sub.name sub.description)).2)
      refine ⟨CreateCall.subtask mainId sub.name sub.description ::
        ((sub.subtasks.map fun n =>
          CreateCall.subtask subTask.id n.name n.description) ++ extra),
        ?_, ?_⟩
      · rw [hcalls, processNested_calls]
        simp [issueCreate]
      · exact List.Sublist.cons₂ _
          (hsub.trans (List.sublist_append_right _ _))

/-- Claim C9: when the main task is created successfully, the function
returns that main task even when subtask or nested-subtask creations fail:
each failure is caught inside the loops (lines 73-77), and one
direct-subtask create call is issued per `"subtasks"` entry, in order,
regardless of the outcomes of the other create calls — siblings are still
attempted and the run is not aborted.  Likewise the nested loop issues
exactly one create call per nested entry, in order, whatever the oracle
answers, so a nested-subtask failure does not prevent its siblings
either. -/
theorem hierarchy_sibling_isolation (createEnv : Nat → Except String TaskData)
    (listId : String) (ts : TaskNode) (mt : TaskData)
    (h0 : createEnv 0 = .ok mt) :
    (create_task_hierarchy createEnv listId ts).1 = .ok mt ∧
    List.Sublist
      (ts.subtasks.map fun s => CreateCall.subtask mt.id s.name s.description)
      (create_task_hierarchy createEnv listId ts).2.calls ∧
    ∀ (pid : String) (ns : List TaskNode) (st : HierState),
      (processNested createEnv pid ns st).calls =
        st.calls ++ ns.map fun n =>
          CreateCall.subtask pid n.name n.description := by
  have h1 : (issueCreate createEnv ⟨0, []⟩
      (.task listId ts.name ts.description)).1 = .ok mt := h0
  unfold create_task_hierarchy
  simp only [h1]
  refine ⟨trivial, ?_, fun pid ns st => processNested_calls createEnv pid ns st⟩
  obtain ⟨extra, hcalls, hsub⟩ := processSubtasks_calls_sublist createEnv
    mt.id ts.subtasks (issueCreate createEnv ⟨0, []⟩
      (.task listId ts.name ts.description)).2
  rw [hcalls]
  exact hsub.trans (List.sublist_append_right _ _)

/-- Oracle for the witness of claim C9: the main task is created, the
first subtask creation raises, the later ones succeed. -/
def hierWitnessEnv : Nat → Except String TaskData := fun i =>
  if i = 0 then .ok ⟨"M"⟩ else if i = 1 then .error "boom" else .ok ⟨"S"⟩

/-- Witness for claim C9 at a concrete input: two subtasks, the first of
which fails to create; the second is still attempted and the main task is
returned. -/
theorem hierarchy_sibling_isolation_witness :
    (create_task_hierarchy hierWitnessEnv "L"
        (.mk "main" "d" [.mk "a" "da" [], .mk "b" "db" []])).1 =
      .ok ⟨"M"⟩ ∧
    List.Sublist
      [CreateCall.subtask "M" "a" "da", CreateCall.subtask "M" "b" "db"]
      (create_task_hierarchy hierWitnessEnv "L"
        (.mk "main" "d" [.mk "a" "da" [], .mk "b" "db" []])).2.calls ∧
    (processNested hierWitnessEnv "P" [.mk "x" "dx" [], .mk "y" "dy" []]
        ⟨5, []⟩).calls =
      [CreateCall.subtask "P" "x" "dx", CreateCall.subtask "P" "y" "dy"] := by
  have h := hierarchy_sibling_isolation hierWitnessEnv "L"
    (.mk "main" "d" [.mk "a" "da" [], .mk "b" "db" []]) ⟨"M"⟩ rfl
  refine ⟨h.1, ?_, ?_⟩
  · simpa [TaskNode.subtasks, TaskNode.name, TaskNode.description] using h.2.1
  · simpa [TaskNode.name, TaskNode.description] using
      h.2.2 "P" [.mk "x" "dx" [], .mk "y" "dy" []] ⟨5, []⟩

/-- Depth truncation of a task structure: `truncate d t` keeps `t` and `d`
further levels of `"subtasks"` entries below it, dropping everything
deeper. -/
def truncate : Nat → TaskNode → TaskNode
  | 0, t => .mk t.name t.description []
  | d + 1, t => .mk t.name t.description (t.subtasks.map (truncate d))

/-- Truncation keeps a node's `"name"`. -/
theorem truncate_name : ∀ (d : Nat) (t : TaskNode),
    (truncate d t).name = t.name
  | 0, _ => rfl
  | _ + 1, _ => rfl

/-- Truncation keeps a node's `"description"`. -/
theorem truncate_description : ∀ (d : Nat) (t : TaskNode),
    (truncate d t).description = t.description
  | 0, _ => rfl
  | _ + 1, _ => rfl

/-- The nested loop reads only names and descriptions of its entries,
which truncation at depth 0 preserves. -/
theorem processNested_truncate0 (createEnv : Nat → Except String TaskData)
    (pid : String) :
    ∀ (ns : List TaskNode) (st : HierState),
      processNested createEnv pid (ns.map (truncate 0)) st =
        processNested createEnv pid ns st
  | [], _ => rfl
  | n :: rest, st => by
    rw [List.map_cons, processNested, processNested,
      truncate_name, truncate_description,
      processNested_truncate0 createEnv pid rest]

/-- The outer loop reads, below each direct subtask, only one further
level of `"subtasks"`, so truncation at depth 1 does not change the
walk. -/
theorem processSubtasks_truncate1 (createEnv : Nat → Except String TaskData)
    (mid : String) :
    ∀ (subs : List TaskNode) (st : HierState),
      processSubtasks createEnv mid (subs.map (truncate 1)) st =
        processSubtasks createEnv mid subs st
  | [], _ => rfl
  | sub :: rest, st => by
    rw [List.map_cons, processSubtasks, processSubtasks,
      truncate_name, truncate_description]
    have hsubs : (truncate 1 sub).subtasks = sub.subtasks.map (truncate 0) := by
      cases sub; rfl
    rcases hres : (issueCreate createEnv st
        (.subtask mid sub.name sub.description)).1 with e | subTask
    · simp only [hres]
      exact processSubtasks_truncate1 createEnv mid rest _
    · simp only [hres, hsubs]
      rw [processNested_truncate0]
      exact processSubtasks_truncate1 createEnv mid rest _

/-- Claim C10: `create_task_hierarchy` issues create calls for at most
three levels of the structure (the main task, its subtasks and their
nested subtasks): the walk equals the walk of the structure truncated
below the third level, so `"subtasks"` entries nested deeper produce no
create call and no failure. -/
theorem hierarchy_depth_truncation (createEnv : Nat → Except String TaskData)
    (listId : String) (ts : TaskNode) :
    create_task_hierarchy createEnv listId ts =
      create_task_hierarchy createEnv listId (truncate 2 ts) := by
  unfold create_task_hierarchy
  rw [truncate_name, truncate_description]
  have hsubs : (truncate 2 ts).subtasks = ts.subtasks.map (truncate 1) := by
    cases ts; rfl
  rcases hres : (issueCreate createEnv ⟨0, []⟩
      (.task listId ts.name ts.description)).1 with e | mainTask
  · simp only [hres]
  · simp only [hres, hsubs]
    rw [processSubtasks_truncate1]
